import Mathlib

/-!
Shallow embedding of the core of the `ghcloner` repository-cloning engine
(domain entities, git-client clone flow, worker-pool retry loop, progress
tracker, token-bucket rate limiter) together with theorems settling the
spec claims.  Go machine integers (`int`, `int64`) are modelled as `Int`;
`float64` quantities are modelled as `ℚ`; wall-clock `time.Time` values are
modelled as integer (or rational) timestamps whose zero value is `0`;
fallible operations return `Option` of a typed error.  Filesystem probes
performed by the Go code are abstracted as boolean-valued oracles packaged
in an `FS` record.
-/

namespace GhCloner

/-- Model of Go's `strings.HasPrefix`. -/
def strHasPrefix (s p : String) : Bool := decide (p.data <+: s.data)

/-- Model of Go's `strings.HasSuffix`. -/
def strHasSuffix (s p : String) : Bool := decide (p.data <:+ s.data)

/-- Model of Go's `strings.Contains` (contiguous substring presence). -/
def strContains (s sub : String) : Bool := decide (sub.data <:+: s.data)

/-- Model of Go's `strings.ToLower`, restricted to ASCII case mapping
(the substrings the git client scans for are all ASCII). -/
def strToLower (s : String) : String := String.mk (s.data.map Char.toLower)

/-- Drop trailing `/` characters, helper for `goJoin`. -/
def stripTrailingSlashes (s : String) : String :=
  String.mk (s.data.reverse.dropWhile (· = '/')).reverse

/-- Model of Go's `filepath.Join base name` on Unix for the clean inputs the
engine produces: the two elements joined by a single separator, with
duplicate separators at the seam removed (e.g. `"/tmp/" + "repo"` gives
`"/tmp/repo"`, matching the repository's own `GetLocalPath` tests). -/
def goJoin (base name : String) : String :=
  if base = "" then name else stripTrailingSlashes base ++ "/" ++ name

/-- Model of Go's `filepath.Dir` on Unix for clean inputs: everything before
the final separator; `"."` when there is no separator; `"/"` for the root. -/
def goDir (p : String) : String :=
  let afterDrop := p.data.reverse.dropWhile (· ≠ '/')
  if afterDrop = [] then "."
  else
    let trimmed := afterDrop.dropWhile (· = '/')
    if trimmed = [] then "/" else String.mk trimmed.reverse

/-- Repository entity (`internal/domain/repository/entity.go`).  `UpdatedAt`
is a timestamp whose Go zero value is modelled as `0`. -/
structure Repository where
  id : Int
  name : String
  cloneURL : String
  owner : String
  isFork : Bool
  size : Int
  defaultBranch : String
  language : String
  description : String
  updatedAt : Int
deriving DecidableEq, Repr

/-- `Repository.IsPublic`: the clone URL uses the `https://` scheme. -/
def Repository.isPublic (r : Repository) : Bool :=
  strHasPrefix r.cloneURL "https://"

/-- `Repository.GetLocalPath`: `filepath.Join(baseDir, r.Name)`. -/
def Repository.getLocalPath (r : Repository) (baseDir : String) : String :=
  goJoin baseDir r.name

/-- `Repository.GetFullName`: `owner/name`. -/
def Repository.getFullName (r : Repository) : String :=
  r.owner ++ "/" ++ r.name

/-- Repository filter (`internal/domain/repository/value_objects.go`). -/
structure RepositoryFilter where
  includeForks : Bool
  minSize : Int
  maxSize : Int
  languages : List String
  updatedAfter : Int
  onlyPublic : Bool
deriving DecidableEq, Repr

/-- The language-matching loop inside `ShouldInclude`. -/
def languageMatch (langs : List String) (language : String) : Bool :=
  match langs with
  | [] => false
  | l :: ls => if language = l then true else languageMatch ls language

/-- `RepositoryFilter.ShouldInclude`, translated clause by clause from
`value_objects.go`. -/
def RepositoryFilter.shouldInclude (rf : RepositoryFilter) (repo : Repository) : Bool :=
  if rf.includeForks = false ∧ repo.isFork = true then false
  else if repo.size < rf.minSize then false
  else if 0 ≤ rf.maxSize ∧ rf.maxSize < repo.size then false
  else if 0 < rf.languages.length ∧ languageMatch rf.languages repo.language = false then false
  else if ¬(rf.updatedAfter = 0) ∧ repo.updatedAt < rf.updatedAfter then false
  else if rf.onlyPublic = true ∧ repo.isPublic = false then false
  else true

/-- Pagination options (`value_objects.go`). -/
structure PaginationOptions where
  page : Int
  perPage : Int
deriving DecidableEq, Repr

/-- `PaginationOptions.Validate`: the Go method mutates the receiver and
always returns a nil error; modelled as returning the updated value.  Note
that any out-of-range `PerPage` (below 1 or above 100) is set to `100`. -/
def PaginationOptions.validate (po : PaginationOptions) : PaginationOptions :=
  let page := if po.page < 1 then 1 else po.page
  let perPage := if po.perPage < 1 ∨ 100 < po.perPage then 100 else po.perPage
  ⟨page, perPage⟩

/-- The filtering loop of `FetchRepositoriesUseCase.Execute`
(`fetch_repositories.go` lines 110-133): returns the records accepted by
the filter, in order, together with the filtered-out count. -/
def filterRepositories (f : RepositoryFilter) : List Repository → List Repository × Nat
  | [] => ([], 0)
  | r :: rs =>
    let rest := filterRepositories f rs
    if f.shouldInclude r then (r :: rest.1, rest.2) else (rest.1, rest.2 + 1)

/-- Clone options (`internal/domain/cloning/job.go`). -/
structure CloneOptions where
  depth : Int
  recurseSubmodules : Bool
  branch : String
  skipExisting : Bool
  createOrgDirs : Bool
deriving DecidableEq, Repr

/-- `NewDefaultCloneOptions`. -/
def newDefaultCloneOptions : CloneOptions :=
  { depth := 1
    recurseSubmodules := true
    branch := ""
    skipExisting := true
    createOrgDirs := false }

/-- Clone-job status enum. -/
inductive JobStatus
  | pending
  | running
  | completed
  | failed
  | skipped
deriving DecidableEq, Repr

/-- Clone job (`job.go`).  The Go struct's `Repository` field is a pointer,
modelled as `Option Repository`; wall-clock timestamps (`StartedAt`,
`CompletedAt`) are not carried because no settled claim depends on them,
and `Error` carries the error's message string. -/
structure CloneJob where
  id : String
  repository : Option Repository
  baseDirectory : String
  options : CloneOptions
  status : JobStatus
  error : Option String
  retryCount : Int
  maxRetries : Int
deriving DecidableEq, Repr

/-- `CloneJob.GetDestinationPath`.  A nil repository would panic in Go; the
code only calls this after the validator's nil check, and the `none` arm
returns `""`. -/
def getDestinationPath (cj : CloneJob) : String :=
  match cj.repository with
  | none => ""
  | some r =>
    if cj.options.createOrgDirs then
      cj.baseDirectory ++ "/" ++ r.owner ++ "/" ++ r.name
    else r.getLocalPath cj.baseDirectory

/-- The clone URL the job hands to `git clone` (`job.Repository.CloneURL`). -/
def cloneURLOf (cj : CloneJob) : String :=
  match cj.repository with
  | none => ""
  | some r => r.cloneURL

/-- Abstraction of the filesystem probes the git client and validator
perform.  `isDir p` models `os.Stat(p)` succeeding with a directory;
`isNonDirFile p` models it succeeding with a non-directory; `parentOk d`
models `validateParentDirectory d` succeeding (directory exists or is
created, and the write-probe works); `removeOk` / `mkdirOk` model
`os.RemoveAll` / `os.MkdirAll` succeeding. -/
structure FS where
  isDir : String → Bool
  isNonDirFile : String → Bool
  parentOk : String → Bool
  removeOk : String → Bool
  mkdirOk : String → Bool

/-- The distinct failure cases of `GitValidator.ValidateCloneJob`
(`validator: unnamed/part_005`). -/
inductive ValidationIssue
  | nilJob
  | nilRepository
  | invalidCloneURL
  | emptyDestination
  | relativeDestination
  | destinationTooLong
  | invalidPathChar
  | parentDirectoryUnusable
  | destinationNotDirectory
  | negativeDepth
  | invalidBranchName
deriving DecidableEq, Repr

/-- `GitValidator.ValidateCloneURL` as a boolean acceptance test.  The Go
code first tries six host-specific regexes and then falls back to accepting
any URL with prefix `https://` or `git@` and suffix `.git`; every string
matched by one of the six regexes also satisfies the fallback condition
(each pattern anchors on one of those prefixes and on the `.git` suffix),
so acceptance is exactly the fallback condition on a non-empty URL. -/
def validateCloneURLOk (url : String) : Bool :=
  if url = "" then false
  else (strHasPrefix url "https://" || strHasPrefix url "git@") && strHasSuffix url ".git"

/-- A character Go's validator treats as a control character. -/
def hasControlChar (s : String) : Bool :=
  s.data.any (fun c => c.toNat < 32 || c.toNat = 127)

/-- `GitValidator.validateBranchName` as a boolean acceptance test; each of
the Go regexes is a plain prefix/suffix/substring condition, translated
directly. -/
def validBranchNameOk (branch : String) : Bool :=
  if branch = "" then false
  else if strHasPrefix branch "." then false
  else if strHasSuffix branch ".." then false
  else if strContains branch "@\x7b" then false
  else if strHasSuffix branch "\\" then false
  else if strHasPrefix branch "/" then false
  else if strHasSuffix branch "/" then false
  else if strContains branch "//" then false
  else if hasControlChar branch then false
  else if strHasSuffix branch " " then false
  else if strHasPrefix branch " " then false
  else if ["~", "^", ":", "?", "*", "[", "\\"].any (fun c => strContains branch c) then false
  else true

/-- `GitValidator.validatePathCharacters`. -/
def pathCharsOk (path : String) : Bool :=
  !(["<", ">", ":", "\"", "|", "?", "*"].any (fun c => strContains path c))
    && !(hasControlChar path)

/-- `GitValidator.ValidateDestinationPath`.  Path length is byte length in
Go and character count here; the engine's paths are ASCII, where the two
agree.  An existing non-empty directory only logs a warning and is
accepted, exactly as in the source. -/
def validateDestinationPath (fs : FS) (path : String) : Option ValidationIssue :=
  if path = "" then some .emptyDestination
  else if !(strHasPrefix path "/") then some .relativeDestination
  else if 260 < path.length then some .destinationTooLong
  else if !(pathCharsOk path) then some .invalidPathChar
  else if !(fs.parentOk (goDir path)) then some .parentDirectoryUnusable
  else if fs.isNonDirFile path then some .destinationNotDirectory
  else none

/-- `GitValidator.ValidateCloneOptions`.  Jobs built by `NewCloneJob`
always carry a non-nil options struct, so the nil-options case is not
modelled. -/
def validateCloneOptions (o : CloneOptions) : Option ValidationIssue :=
  if o.depth < 0 then some .negativeDepth
  else if o.branch ≠ "" && !(validBranchNameOk o.branch) then some .invalidBranchName
  else none

/-- `GitValidator.ValidateCloneJob`: nil checks, clone URL, destination
path, clone options, in source order. -/
def validateCloneJob (fs : FS) (job : Option CloneJob) : Option ValidationIssue :=
  match job with
  | none => some .nilJob
  | some j =>
    match j.repository with
    | none => some .nilRepository
    | some repo =>
      if !(validateCloneURLOk repo.cloneURL) then some .invalidCloneURL
      else
        match validateDestinationPath fs (getDestinationPath j) with
        | some e => some e
        | none => validateCloneOptions j.options

/-- The error values `GitClient.CloneRepository` can return
(`client.go` together with the typed errors of `unnamed/part_005`).
`invalidCloneJob` models the `fmt.Errorf("invalid clone job: %w", err)`
wrapper — a `*fmt.wrapError`, not one of the typed git error structs. -/
inductive GoErr
  | invalidCloneJob (issue : ValidationIssue)
  | removeAllFailed (path : String)
  | mkdirFailed (path : String)
  | repositoryExistsError (path : String)
  | authenticationError
  | repositoryNotFoundError
  | permissionError
  | networkError
  | timeoutError
  | diskSpaceError
  | pathTooLongError
  | gitError (output : String)
deriving DecidableEq, Repr

/-- `Error()` message of each modelled error value (sub-messages of wrapped
errors are not reproduced). -/
def errMessage : GoErr → String
  | .invalidCloneJob _ => "invalid clone job"
  | .removeAllFailed _ => "failed to remove existing repository"
  | .mkdirFailed _ => "failed to create destination directory"
  | .repositoryExistsError p => "repository already exists at: " ++ p
  | .authenticationError => "Git authentication failed"
  | .repositoryNotFoundError => "Repository not found"
  | .permissionError => "Permission denied"
  | .networkError => "Network unreachable"
  | .timeoutError => "Connection timed out"
  | .diskSpaceError => "No space left on device"
  | .pathTooLongError => "File path too long"
  | .gitError _ => "Git command failed"

/-- `GitValidator.IsPermanentError`: a type switch on the five permanent
error structs.  Wrapped validation errors, `RepositoryExistsError`,
network/timeout errors and generic `GitError`s all fall through to
`false`. -/
def isPermanentError : GoErr → Bool
  | .authenticationError => true
  | .repositoryNotFoundError => true
  | .permissionError => true
  | .diskSpaceError => true
  | .pathTooLongError => true
  | _ => false

/-- `GitClient.parseGitError`: substring scan of the lowercased combined
output, in source order; the fallback `GitError` stores the lowercased
output, as in the source (the output variable is reassigned before the
switch). -/
def parseGitError (output : String) : GoErr :=
  let o := strToLower output
  if strContains o "authentication failed" then .authenticationError
  else if strContains o "repository not found" then .repositoryNotFoundError
  else if strContains o "permission denied" then .permissionError
  else if strContains o "network is unreachable" then .networkError
  else if strContains o "connection timed out" then .timeoutError
  else if strContains o "no space left on device" then .diskSpaceError
  else if strContains o "filename too long" then .pathTooLongError
  else .gitError o

/-- Result of one `CloneRepository` call: the returned error (`none` = nil)
and whether the external `git` process was invoked. -/
structure CloneOutcome where
  error : Option GoErr
  ranGit : Bool
deriving DecidableEq, Repr

/-- The tail of `CloneRepository` after the existence check: create the
parent directory, then run the external process.  `gitExec = none` models
the process succeeding; `some output` models a non-zero exit with the given
combined output, classified by `parseGitError`. -/
def cloneRun (fs : FS) (destPath : String) (gitExec : Option String) : CloneOutcome :=
  if !(fs.mkdirOk (goDir destPath)) then ⟨some (.mkdirFailed destPath), false⟩
  else
    match gitExec with
    | none => ⟨none, true⟩
    | some output => ⟨some (parseGitError output), true⟩

/-- `GitClient.CloneRepository` (`client.go` lines 56-112): validate the
job, check for an existing `.git` directory (skip or remove), prepare the
destination, invoke git, classify failures. -/
def cloneRepository (fs : FS) (job : Option CloneJob) (gitExec : Option String) :
    CloneOutcome :=
  match job with
  | none => ⟨some (.invalidCloneJob .nilJob), false⟩
  | some j =>
    match validateCloneJob fs (some j) with
    | some issue => ⟨some (.invalidCloneJob issue), false⟩
    | none =>
      let destPath := getDestinationPath j
      if fs.isDir (goJoin destPath ".git") then
        if j.options.skipExisting then ⟨some (.repositoryExistsError destPath), false⟩
        else if !(fs.removeOk destPath) then ⟨some (.removeAllFailed destPath), false⟩
        else cloneRun fs destPath gitExec
      else cloneRun fs destPath gitExec

/-- `GitClient.buildCloneArgs`. -/
def buildCloneArgs (j : CloneJob) : List String :=
  let args := ["clone"]
  let args := if 0 < j.options.depth then args ++ ["--depth", toString j.options.depth] else args
  let args := if j.options.branch ≠ "" then args ++ ["--branch", j.options.branch] else args
  let args := if j.options.recurseSubmodules then args ++ ["--recurse-submodules"] else args
  let args := args ++ ["--no-hardlinks", "--quiet"]
  args ++ [cloneURLOf j, getDestinationPath j]

/-- The most-recent-completion record kept by the progress tracker
(`progress.go`); its `CompletedAt` wall-clock stamp is not carried. -/
structure RecentCompletion where
  repository : String
  status : JobStatus
  duration : Int
  size : Int
  error : String
deriving DecidableEq, Repr

/-- Progress state (`progress.go`).  Counters are Go `int`s, modelled as
`Int`; the wall-clock fields (`StartTime`, `ElapsedTime`, `ETA`,
`Throughput`, `LastUpdate`) are derived read-time quantities that no
settled claim depends on and are not carried. -/
structure Progress where
  total : Int
  completed : Int
  failed : Int
  skipped : Int
  inProgress : Int
  recentCompletion : Option RecentCompletion
deriving DecidableEq, Repr

/-- `Progress.GetPercentage` with `float64` modelled as `ℚ`: `100` for an
empty total, otherwise `processed / total * 100` capped at `100`. -/
def Progress.getPercentage (p : Progress) : ℚ :=
  if p.total = 0 then 100
  else
    let processed : ℚ := ((p.completed + p.failed + p.skipped : Int) : ℚ)
    let percentage := processed / ((p.total : Int) : ℚ) * 100
    if 100 < percentage then 100 else percentage

/-- `Progress.IsComplete`: processed at least total and nothing in
progress. -/
def Progress.isComplete (p : Progress) : Bool :=
  decide (p.total ≤ p.completed + p.failed + p.skipped) && decide (p.inProgress = 0)

/-- The guarded decrement `if InProgress > 0 then InProgress--` shared by
every terminal tracker transition. -/
def decInProgress (p : Progress) : Progress :=
  if 0 < p.inProgress then { p with inProgress := p.inProgress - 1 } else p

/-- `ProgressTracker.ForceSynchronize` (`progress.go` lines 254-280). -/
def forceSynchronize (p : Progress) : Progress :=
  let processed := p.completed + p.failed + p.skipped
  let q :=
    if processed < p.total ∧ 0 < p.inProgress then
      let remaining := p.total - processed
      if remaining ≤ p.inProgress then
        { p with completed := p.completed + remaining, inProgress := p.inProgress - remaining }
      else
        { p with completed := p.completed + p.inProgress, inProgress := 0 }
    else p
  if q.inProgress < 0 then { q with inProgress := 0 } else q

/-- The mutating operations of `ProgressTracker`.  The `WithDetails`
variants carry the repository full name, measured duration and size /
error payload they record. -/
inductive TrackerOp
  | startJob
  | completeJob
  | completeJobWithDetails (repo : String) (duration : Int) (size : Int)
  | failJob
  | failJobWithDetails (repo : String) (duration : Int) (error : String)
  | skipJob
  | skipJobWithDetails (repo : String) (duration : Int) (reason : String)
  | forceSynchronize
deriving DecidableEq, Repr

/-- One tracker transition under the tracker's mutex (`progress.go` lines
157-245 and 254-280).  `UpdateRecentCompletion` stores an empty error
string for a nil error and `"skipped: <reason>"` for a skip, as in the
source. -/
def applyTrackerOp (p : Progress) : TrackerOp → Progress
  | .startJob => { p with inProgress := p.inProgress + 1 }
  | .completeJob =>
    let q := decInProgress p
    { q with completed := q.completed + 1 }
  | .completeJobWithDetails repo d sz =>
    let q := decInProgress p
    { q with completed := q.completed + 1,
             recentCompletion := some ⟨repo, .completed, d, sz, ""⟩ }
  | .failJob =>
    let q := decInProgress p
    { q with failed := q.failed + 1 }
  | .failJobWithDetails repo d e =>
    let q := decInProgress p
    { q with failed := q.failed + 1,
             recentCompletion := some ⟨repo, .failed, d, 0, e⟩ }
  | .skipJob =>
    let q := decInProgress p
    { q with skipped := q.skipped + 1 }
  | .skipJobWithDetails repo d reason =>
    let q := decInProgress p
    { q with skipped := q.skipped + 1,
             recentCompletion := some ⟨repo, .skipped, d, 0, "skipped: " ++ reason⟩ }
  | .forceSynchronize => GhCloner.forceSynchronize p

/-- A sequence of tracker operations applied in order. -/
def applyTrackerOps (p : Progress) (ops : List TrackerOp) : Progress :=
  ops.foldl applyTrackerOp p

/-- What the worker observes at one iteration of the retry loop: whether
the pool's cancellation signal has fired at the loop head, the error
`CloneRepository` returns at this attempt (`none` = success), and whether
cancellation interrupts the backoff sleep after this attempt. -/
structure AttemptEnv where
  cancelledAtStart : Bool
  cloneErr : Option GoErr
  cancelledInSleep : Bool
deriving DecidableEq, Repr

/-- Terminal handler chosen by `executeJob` for a job. -/
inductive Disposition
  | cancelled
  | success
  | skipped (reason : String)
  | failed (lastErr : Option GoErr)
deriving DecidableEq, Repr

/-- Outcome of `WorkerPool.executeJob` for one job: which terminal handler
ran, how many times `CloneRepository` was invoked, and how many backoff
sleeps were entered. -/
structure ExecResult where
  disposition : Disposition
  cloneCalls : Nat
  sleeps : Nat
deriving DecidableEq, Repr

/-- The retry loop of `WorkerPool.executeJob` (`worker_pool.go` lines
129-187), unrolled from `attempt` with `fuel` iterations remaining
(`executeJob` enters with `attempt = 0`, `fuel = maxRetries + 1`, matching
`for attempt := 0; attempt <= maxRetries; attempt++`).  Order of the
checks follows the source: cancellation at the loop head, clone, success,
permanent-error classification, `RepositoryExistsError` type assertion,
then backoff sleep (interruptible by cancellation) when `attempt <
maxRetries`; falling out of the loop reaches `handleJobFailure(lastErr)`. -/
def execFrom (maxRetries : Nat) (env : Nat → AttemptEnv) :
    Option GoErr → Nat → Nat → ExecResult
  | lastErr, _, 0 => ⟨.failed lastErr, 0, 0⟩
  | _, attempt, fuel + 1 =>
    let e := env attempt
    if e.cancelledAtStart then ⟨.cancelled, 0, 0⟩
    else
      match e.cloneErr with
      | none => ⟨.success, 1, 0⟩
      | some err =>
        if isPermanentError err then ⟨.failed (some err), 1, 0⟩
        else
          match err with
          | .repositoryExistsError p =>
            ⟨.skipped (errMessage (.repositoryExistsError p)), 1, 0⟩
          | _ =>
            if attempt < maxRetries then
              if e.cancelledInSleep then ⟨.cancelled, 1, 1⟩
              else
                let r := execFrom maxRetries env (some err) (attempt + 1) fuel
                ⟨r.disposition, r.cloneCalls + 1, r.sleeps + 1⟩
            else ⟨.failed (some err), 1, 0⟩

/-- `WorkerPool.executeJob` for one job under the given per-attempt
observations. -/
def executeJob (maxRetries : Nat) (env : Nat → AttemptEnv) : ExecResult :=
  execFrom maxRetries env none 0 (maxRetries + 1)

/-- The `Success` flag of the `JobResult` each terminal handler sends on
the results channel — `none` when no result is emitted at all:
`handleJobSuccess` and `handleJobSkipped` send `success = true`,
`handleJobFailure` sends `success = false`, and `handleJobCancellation`
(`worker_pool.go` lines 278-288) performs no send. -/
def emittedResult : Disposition → Option Bool
  | .success => some true
  | .skipped _ => some true
  | .failed _ => some false
  | .cancelled => none

/-- The tracker call each terminal handler performs (with the repository
full name, measured duration and size it passes). -/
def terminalTrackerOp (fullName : String) (duration size : Int) :
    Disposition → TrackerOp
  | .success => .completeJobWithDetails fullName duration size
  | .skipped reason => .skipJobWithDetails fullName duration reason
  | .failed e => .failJobWithDetails fullName duration
      (match e with | some err => errMessage err | none => "")
  | .cancelled => .failJob

/-- The job status each terminal handler leaves on the job
(`MarkCompleted` / `MarkSkipped` / `MarkFailed`). -/
def jobStatusAfter : Disposition → JobStatus
  | .success => .completed
  | .skipped _ => .skipped
  | .failed _ => .failed
  | .cancelled => .failed

/-- The job's `Error` field after the terminal handler (`MarkSkipped`
stores `"skipped: <reason>"`; `handleJobCancellation` calls
`MarkFailed(fmt.Errorf("job cancelled"))`). -/
def jobErrorAfter : Disposition → Option String
  | .success => none
  | .skipped reason => some ("skipped: " ++ reason)
  | .failed e => e.map errMessage
  | .cancelled => some "job cancelled"

/-- Token-bucket rate limiter state (`unnamed/part_004`).  `float64`
quantities (`tokens`, `refillRate`) are modelled as `ℚ`; instants
(`resetTime`, `lastRefill`) are rational timestamps in seconds. -/
structure RateLimiterState where
  limit : Int
  remaining : Int
  resetTime : ℚ
  lastRefill : ℚ
  tokens : ℚ
  refillRate : ℚ
deriving DecidableEq, Repr

/-- `NewTokenBucketRateLimiter` constructed at instant `now`. -/
def newTokenBucketRateLimiter (limit : Int) (now : ℚ) : RateLimiterState :=
  let l : Int := if limit = 0 then 1000 else limit
  { limit := l
    remaining := l
    resetTime := now + 3600
    lastRefill := now
    tokens := (l : ℚ)
    refillRate := (l : ℚ) / 3600 }

/-- `refillTokens` evaluated at instant `now`: full refill when the reset
instant has passed, otherwise lazy refill from elapsed time capped at
capacity. -/
def refillTokens (s : RateLimiterState) (now : ℚ) : RateLimiterState :=
  if s.resetTime < now then
    { s with tokens := (s.limit : ℚ), lastRefill := now, resetTime := now + 3600 }
  else
    { s with tokens := min (s.tokens + (now - s.lastRefill) * s.refillRate) ((s.limit : ℚ)),
             lastRefill := now }

/-- `Allow` evaluated at instant `now`. -/
def allowModel (s : RateLimiterState) (now : ℚ) : Bool × RateLimiterState :=
  let s1 := refillTokens s now
  if 1 ≤ s1.tokens then (true, { s1 with tokens := s1.tokens - 1 }) else (false, s1)

/-- The backoff duration `Wait` computes when the bucket is empty:
`time.Duration((1.0 - tokens) / refillRate * float64(time.Second))` — the
float value in nanoseconds is truncated to a whole number of nanoseconds
by the `time.Duration` conversion. -/
def waitDuration (s1 : RateLimiterState) : ℚ :=
  ((⌊(1 - s1.tokens) / s1.refillRate * 1000000000⌋ : Int) : ℚ) / 1000000000

/-- The three ways `Wait` can return. -/
inductive WaitOutcome
  | ok
  | ctxCancelled
  | rateLimitExceeded
deriving DecidableEq, Repr

/-- `TokenBucketRateLimiter.Wait` called at instant `now`
(`unnamed/part_004` lines 55-85).  `cancelledBeforeTimer` records whether
the cancellation context fires before the backoff timer; `elapsed` is the
real time that passes before the timer case is selected (Go guarantees
`elapsed ≥ waitDuration`, the timer's programmed duration).  After the
single timer wait the code refills once more and, if the bucket still
lacks a whole token, returns the `"rate limit exceeded"` error. -/
def waitModel (s : RateLimiterState) (now : ℚ) (cancelledBeforeTimer : Bool)
    (elapsed : ℚ) : WaitOutcome × RateLimiterState :=
  let s1 := refillTokens s now
  if 1 ≤ s1.tokens then (.ok, { s1 with tokens := s1.tokens - 1 })
  else if cancelledBeforeTimer then (.ctxCancelled, s1)
  else
    let s2 := refillTokens s1 (now + elapsed)
    if 1 ≤ s2.tokens then (.ok, { s2 with tokens := s2.tokens - 1 })
    else (.rateLimitExceeded, s2)

/-- The per-job attempt environment in the common deterministic situation:
cancellation never fires and every attempt observes the same
`CloneRepository` outcome. -/
def constEnvOf (e : Option GoErr) : Nat → AttemptEnv := fun _ => ⟨false, e, false⟩

/-- Every single tracker transition leaves each terminal counter
(completed / failed / skipped) at or above its previous value. -/
theorem applyTrackerOp_counters_mono (p : Progress) (op : TrackerOp) :
    p.completed ≤ (applyTrackerOp p op).completed ∧
    p.failed ≤ (applyTrackerOp p op).failed ∧
    p.skipped ≤ (applyTrackerOp p op).skipped := by
  cases op <;>
    simp only [applyTrackerOp, decInProgress, forceSynchronize] <;>
    (try split_ifs) <;> (try simp) <;> omega

/-- Folding a list of tracker operations never decreases a terminal
counter. -/
theorem applyTrackerOps_counters_mono (ops : List TrackerOp) (p : Progress) :
    p.completed ≤ (applyTrackerOps p ops).completed ∧
    p.failed ≤ (applyTrackerOps p ops).failed ∧
    p.skipped ≤ (applyTrackerOps p ops).skipped := by
  induction ops generalizing p with
  | nil => simp [applyTrackerOps]
  | cons op ops ih =>
    have h1 := applyTrackerOp_counters_mono p op
    have h2 := ih (applyTrackerOp p op)
    simp only [applyTrackerOps, List.foldl_cons] at h2 ⊢
    exact ⟨le_trans h1.1 h2.1, le_trans h1.2.1 h2.2.1, le_trans h1.2.2 h2.2.2⟩

/-- C5: For any sequence of ProgressTracker operations (StartJob,
CompleteJob, CompleteJobWithDetails, FailJob, FailJobWithDetails, SkipJob,
SkipJobWithDetails, ForceSynchronize), each of the completed, failed, and
skipped counters is non-decreasing over time; no operation ever decrements
a terminal counter.  Stated for every starting state and every suffix of
the operation sequence, which is exactly non-decrease at every point of
the trace. -/
theorem C5_tracker_counters_monotone :
    ∀ (ops : List TrackerOp) (p : Progress),
      p.completed ≤ (applyTrackerOps p ops).completed ∧
      p.failed ≤ (applyTrackerOps p ops).failed ∧
      p.skipped ≤ (applyTrackerOps p ops).skipped :=
  fun ops p => applyTrackerOps_counters_mono ops p

/-- C8 counterexample: the claim says a per-page value below 1 is clamped
up to 1, but `Validate` sets any out-of-range per-page to 100: on input
`PerPage = 0` the result is `100`, not `1`. -/
theorem C8_counterexample :
    (PaginationOptions.validate ⟨1, 0⟩).perPage = 100 ∧
    (PaginationOptions.validate ⟨1, 0⟩).perPage ≠ 1 := by
  constructor <;> decide

/-- C8 (amended): after `Validate` the page number is at least 1 (values
below 1 become 1, others are kept), and the per-page count lies in
[1, 100]: an in-range per-page is kept, while any out-of-range per-page —
below 1 or above 100 — becomes 100. -/
theorem C8_pagination_validate (po : PaginationOptions) :
    1 ≤ (po.validate).page ∧
    1 ≤ (po.validate).perPage ∧ (po.validate).perPage ≤ 100 ∧
    (po.page < 1 → (po.validate).page = 1) ∧
    (1 ≤ po.page → (po.validate).page = po.page) ∧
    (po.perPage < 1 ∨ 100 < po.perPage → (po.validate).perPage = 100) ∧
    (1 ≤ po.perPage → po.perPage ≤ 100 → (po.validate).perPage = po.perPage) := by
  simp only [PaginationOptions.validate]
  split_ifs <;> simp_all <;> omega

/-- C8 witness: the amended statement evaluated at `page = 0`,
`perPage = 105`. -/
theorem C8_pagination_validate_witness :
    (PaginationOptions.validate ⟨0, 105⟩).page = 1 ∧
    (PaginationOptions.validate ⟨0, 105⟩).perPage = 100 :=
  ⟨(C8_pagination_validate ⟨0, 105⟩).2.2.2.1 (by decide),
   (C8_pagination_validate ⟨0, 105⟩).2.2.2.2.2.1 (Or.inr (by decide))⟩

/-- C9: the default clone options are depth 1 (a shallow clone, not the
full history denoted by depth 0), recurse-submodules on, no explicit
branch, skip-existing on, no owner subdirectory; and for any job carrying
the default options, the git invocation contains `--depth 1`, so a batch
run with default options never clones full history. -/
theorem C9_default_clone_options :
    newDefaultCloneOptions.depth = 1 ∧
    newDefaultCloneOptions.depth ≠ 0 ∧
    newDefaultCloneOptions.recurseSubmodules = true ∧
    newDefaultCloneOptions.branch = "" ∧
    newDefaultCloneOptions.skipExisting = true ∧
    newDefaultCloneOptions.createOrgDirs = false ∧
    ∀ j : CloneJob, j.options = newDefaultCloneOptions →
      buildCloneArgs j =
        ["clone", "--depth", "1", "--recurse-submodules", "--no-hardlinks",
         "--quiet", cloneURLOf j, getDestinationPath j] := by
  refine ⟨rfl, by decide, rfl, rfl, rfl, rfl, ?_⟩
  intro j hj
  simp [buildCloneArgs, hj, newDefaultCloneOptions]
  decide

/-- C9 witness: the default-options conclusion evaluated at a concrete
job. -/
theorem C9_default_clone_options_witness :
    buildCloneArgs
        ⟨"job_1", some ⟨1, "repo", "https://github.com/owner/repo.git", "owner",
            false, 0, "main", "", "", 0⟩,
          "/tmp", newDefaultCloneOptions, .pending, none, 0, 3⟩ =
      ["clone", "--depth", "1", "--recurse-submodules", "--no-hardlinks",
       "--quiet", "https://github.com/owner/repo.git", "/tmp/repo"] := by
  have h := C9_default_clone_options.2.2.2.2.2.2
      ⟨"job_1", some ⟨1, "repo", "https://github.com/owner/repo.git", "owner",
          false, 0, "main", "", "", 0⟩,
        "/tmp", newDefaultCloneOptions, .pending, none, 0, 3⟩ rfl
  rw [h]
  decide

/-- C10: a Progress value with `Total = 0` reports exactly 100 percent,
and (whenever the counters are the non-negative values the tracker
produces) `IsComplete` is true as soon as `InProgress = 0`: an empty batch
reports as fully complete rather than as 0 percent or undefined. -/
theorem C10_empty_batch_complete (p : Progress) (h0 : p.total = 0) :
    p.getPercentage = 100 ∧
    (0 ≤ p.completed + p.failed + p.skipped → p.inProgress = 0 →
      p.isComplete = true) := by
  constructor
  · simp [Progress.getPercentage, h0]
  · intro hnn hip
    simp only [Progress.isComplete, hip, h0, Bool.and_eq_true, decide_eq_true_eq]
    exact ⟨hnn, trivial⟩

/-- C10 witness: the freshly-created empty tracker state. -/
theorem C10_empty_batch_complete_witness :
    Progress.getPercentage ⟨0, 0, 0, 0, 0, none⟩ = 100 ∧
    Progress.isComplete ⟨0, 0, 0, 0, 0, none⟩ = true :=
  ⟨(C10_empty_batch_complete ⟨0, 0, 0, 0, 0, none⟩ rfl).1,
   (C10_empty_batch_complete ⟨0, 0, 0, 0, 0, none⟩ rfl).2 (by decide) rfl⟩

/-- The language loop accepts exactly the languages in the list. -/
theorem languageMatch_iff (langs : List String) (language : String) :
    languageMatch langs language = true ↔ language ∈ langs := by
  induction langs with
  | nil => simp [languageMatch]
  | cons l ls ih =>
    simp only [languageMatch, List.mem_cons]
    by_cases h : language = l
    · simp [h]
    · simp [h, ih]

/-- `ShouldInclude` accepts a record exactly when every predicate accepts
it. -/
theorem shouldInclude_iff (f : RepositoryFilter) (r : Repository) :
    f.shouldInclude r = true ↔
      ((f.includeForks = true ∨ r.isFork = false) ∧
       f.minSize ≤ r.size ∧
       (f.maxSize < 0 ∨ r.size ≤ f.maxSize) ∧
       (f.languages = [] ∨ r.language ∈ f.languages) ∧
       (f.updatedAfter = 0 ∨ ¬ r.updatedAt < f.updatedAfter) ∧
       (f.onlyPublic = false ∨ r.isPublic = true)) := by
  have e1 : (f.includeForks = true ∨ r.isFork = false) ↔
      ¬(f.includeForks = false ∧ r.isFork = true) := by
    cases f.includeForks <;> cases r.isFork <;> simp
  have e2 : f.minSize ≤ r.size ↔ ¬(r.size < f.minSize) := by omega
  have e3 : (f.maxSize < 0 ∨ r.size ≤ f.maxSize) ↔
      ¬(0 ≤ f.maxSize ∧ f.maxSize < r.size) := by omega
  have e4 : (f.languages = [] ∨ r.language ∈ f.languages) ↔
      ¬(0 < f.languages.length ∧ languageMatch f.languages r.language = false) := by
    constructor
    · rintro (h | h) ⟨hlen, hlm⟩
      · rw [h] at hlen; simp at hlen
      · rw [← languageMatch_iff] at h; rw [h] at hlm; cases hlm
    · intro h
      by_cases hnil : f.languages = []
      · exact Or.inl hnil
      · refine Or.inr ?_
        rw [← languageMatch_iff]
        by_cases hlm : languageMatch f.languages r.language = true
        · exact hlm
        · exact absurd ⟨List.length_pos.mpr hnil, Bool.eq_false_iff.mpr hlm⟩ h
  have e5 : (f.updatedAfter = 0 ∨ ¬ r.updatedAt < f.updatedAfter) ↔
      ¬(¬(f.updatedAfter = 0) ∧ r.updatedAt < f.updatedAfter) := by
    constructor
    · rintro (h | h) ⟨hne, hlt⟩
      · exact hne h
      · exact h hlt
    · intro h
      by_cases h0 : f.updatedAfter = 0
      · exact Or.inl h0
      · exact Or.inr (fun hlt => h ⟨h0, hlt⟩)
  have e6 : (f.onlyPublic = false ∨ r.isPublic = true) ↔
      ¬(f.onlyPublic = true ∧ r.isPublic = false) := by
    cases f.onlyPublic <;> cases r.isPublic <;> simp
  rw [e1, e2, e3, e4, e5, e6]
  simp only [RepositoryFilter.shouldInclude]
  split_ifs with h1 h2 h3 h4 h5 h6 <;> simp_all

/-- Every record kept by the Execute filtering loop passes the filter. -/
theorem filterRepositories_sound (f : RepositoryFilter) :
    ∀ (rs : List Repository) (x : Repository),
      x ∈ (filterRepositories f rs).1 → f.shouldInclude x = true := by
  intro rs
  induction rs with
  | nil => intro x hx; simp [filterRepositories] at hx
  | cons r rs ih =>
    intro x hx
    simp only [filterRepositories] at hx
    by_cases h : f.shouldInclude r = true
    · rw [if_pos h] at hx
      rcases List.mem_cons.mp hx with rfl | hmem
      · exact h
      · exact ih x hmem
    · rw [if_neg h] at hx
      exact ih x hx

/-- C6: `RepositoryFilter.ShouldInclude` returns true iff all predicates
accept the record — (include-forks is set or the record is not a fork),
size at least min-size, (max-size negative or size at most max-size),
(allowed-languages empty or the record's language listed), (updated-after
unset or the record not updated before it), (only-public unset or the
clone URL is https) — and every record the Fetch use case's filtering loop
returns satisfies the filter predicate. -/
theorem C6_filter_soundness (f : RepositoryFilter) (r : Repository) :
    (f.shouldInclude r = true ↔
      ((f.includeForks = true ∨ r.isFork = false) ∧
       f.minSize ≤ r.size ∧
       (f.maxSize < 0 ∨ r.size ≤ f.maxSize) ∧
       (f.languages = [] ∨ r.language ∈ f.languages) ∧
       (f.updatedAfter = 0 ∨ ¬ r.updatedAt < f.updatedAfter) ∧
       (f.onlyPublic = false ∨ r.isPublic = true))) ∧
    ∀ (rs : List Repository) (x : Repository),
      x ∈ (filterRepositories f rs).1 → f.shouldInclude x = true :=
  ⟨shouldInclude_iff f r, filterRepositories_sound f⟩

/-- C6 witness: the default filter on a concrete non-fork https record,
with the membership hypothesis discharged on a one-element fetch result. -/
theorem C6_filter_soundness_witness :
    RepositoryFilter.shouldInclude ⟨false, 0, -1, [], 0, true⟩
      ⟨1, "repo", "https://github.com/owner/repo.git", "owner", false, 5,
        "main", "Go", "", 0⟩ = true :=
  (C6_filter_soundness ⟨false, 0, -1, [], 0, true⟩
      ⟨1, "repo", "https://github.com/owner/repo.git", "owner", false, 5,
        "main", "Go", "", 0⟩).2
    [⟨1, "repo", "https://github.com/owner/repo.git", "owner", false, 5,
        "main", "Go", "", 0⟩]
    ⟨1, "repo", "https://github.com/owner/repo.git", "owner", false, 5,
        "main", "Go", "", 0⟩
    (by decide)

/-- The retry loop performs at most one `CloneRepository` call per
remaining iteration. -/
theorem execFrom_calls_le (maxRetries : Nat) (env : Nat → AttemptEnv) :
    ∀ (fuel : Nat) (lastErr : Option GoErr) (attempt : Nat),
      (execFrom maxRetries env lastErr attempt fuel).cloneCalls ≤ fuel := by
  intro fuel
  induction fuel with
  | zero => intro lastErr attempt; simp [execFrom]
  | succ n ih =>
    intro lastErr attempt
    simp only [execFrom]
    split
    · simp
    · split
      · simp
      · split
        · simp
        · split
          · simp
          · split
            · split
              · simp
              · simpa using Nat.succ_le_succ (ih _ (attempt + 1))
            · simp

/-- Reaching an attempt whose clone call returns a permanent-classified
error ends the loop at once: that attempt's single call, no sleep, job
failed with that error. -/
theorem execFrom_permanent (maxRetries : Nat) (env : Nat → AttemptEnv)
    (lastErr : Option GoErr) (attempt fuel : Nat) (err : GoErr)
    (hc : (env attempt).cancelledAtStart = false)
    (he : (env attempt).cloneErr = some err)
    (hp : isPermanentError err = true) :
    execFrom maxRetries env lastErr attempt (fuel + 1) =
      ⟨.failed (some err), 1, 0⟩ := by
  simp [execFrom, hc, he, hp]

/-- With cancellation never firing and every attempt observing the same
non-permanent error that is not `RepositoryExistsError`, the loop runs all
its remaining iterations, sleeping between consecutive ones, and ends in
`handleJobFailure`. -/
theorem execFrom_retryable_const (maxRetries : Nat) (env : Nat → AttemptEnv)
    (err : GoErr)
    (hperm : isPermanentError err = false)
    (hnr : ∀ p, err ≠ .repositoryExistsError p)
    (henv : ∀ a, env a = ⟨false, some err, false⟩) :
    ∀ (fuel attempt : Nat) (lastErr : Option GoErr),
      attempt + fuel = maxRetries + 1 → 1 ≤ fuel →
      execFrom maxRetries env lastErr attempt fuel =
        ⟨.failed (some err), fuel, fuel - 1⟩ := by
  intro fuel
  induction fuel with
  | zero => intro attempt lastErr hsum h1; omega
  | succ n ih =>
    intro attempt lastErr hsum h1
    have hstep : execFrom maxRetries env lastErr attempt (n + 1) =
        if attempt < maxRetries then
          let r := execFrom maxRetries env (some err) (attempt + 1) n
          ⟨r.disposition, r.cloneCalls + 1, r.sleeps + 1⟩
        else ⟨.failed (some err), 1, 0⟩ := by
      simp only [execFrom, henv attempt]
      cases err <;> simp_all [isPermanentError]
    rw [hstep]
    rcases Nat.eq_or_lt_of_le h1 with hn1 | hn2
    · have ha : attempt = maxRetries := by omega
      have : ¬ attempt < maxRetries := by omega
      rw [if_neg this]
      simp [← hn1]
    · have hlt : attempt < maxRetries := by omega
      rw [if_pos hlt]
      have hrec := ih (attempt + 1) (some err) (by omega) (by omega)
      simp [hrec]
      omega

/-- C2: for every job executed by the worker pool with retry limit
`maxRetries`, `CloneRepository` is invoked at most `maxRetries + 1` times;
and any iteration whose invocation returns an error classified permanent
(AuthenticationError, RepositoryNotFoundError, PermissionError,
DiskSpaceError, or PathTooLongError) is the job's last: that iteration
makes the single remaining invocation and the loop stops. -/
theorem C2_retry_bound (maxRetries : Nat) (env : Nat → AttemptEnv) :
    (executeJob maxRetries env).cloneCalls ≤ maxRetries + 1 ∧
    ∀ (attempt fuel : Nat) (lastErr : Option GoErr) (err : GoErr),
      (env attempt).cancelledAtStart = false →
      (env attempt).cloneErr = some err →
      isPermanentError err = true →
      execFrom maxRetries env lastErr attempt (fuel + 1) =
        ⟨.failed (some err), 1, 0⟩ :=
  ⟨execFrom_calls_le maxRetries env (maxRetries + 1) none 0,
   fun attempt fuel lastErr err hc he hp =>
     execFrom_permanent maxRetries env lastErr attempt fuel err hc he hp⟩

/-- C2 witness: with `maxRetries = 3` and every attempt returning an
authentication error, at most four calls are permitted and the very first
attempt is the only one made. -/
theorem C2_retry_bound_witness :
    (executeJob 3 (constEnvOf (some .authenticationError))).cloneCalls ≤ 4 ∧
    execFrom 3 (constEnvOf (some .authenticationError)) none 0 4 =
      ⟨.failed (some .authenticationError), 1, 0⟩ :=
  ⟨(C2_retry_bound 3 (constEnvOf (some .authenticationError))).1,
   (C2_retry_bound 3 (constEnvOf (some .authenticationError))).2 0 3 none
     .authenticationError rfl rfl rfl⟩

/-- C1: for every clone job that passes the clone-job validator, whose
destination already contains a `.git` child directory, and whose options
have skip-existing set, `CloneRepository` returns the typed
`RepositoryExistsError` without running the external git process
(`ranGit = false`); `executeJob` then takes the skipped disposition (the
job is marked skipped), the tracker transition it performs increments only
the skipped counter — completed (and failed) are unchanged — and the
emitted `JobResult` has `success = true`. -/
theorem C1_skip_on_exists (fs : FS) (j : CloneJob) (g : Option String)
    (maxRetries : Nat) (p : Progress) (fullName : String) (d sz : Int)
    (hval : validateCloneJob fs (some j) = none)
    (hskip : j.options.skipExisting = true)
    (hgit : fs.isDir (goJoin (getDestinationPath j) ".git") = true) :
    cloneRepository fs (some j) g =
      ⟨some (.repositoryExistsError (getDestinationPath j)), false⟩ ∧
    (executeJob maxRetries
        (constEnvOf (cloneRepository fs (some j) g).error)).disposition =
      .skipped (errMessage (.repositoryExistsError (getDestinationPath j))) ∧
    emittedResult (executeJob maxRetries
        (constEnvOf (cloneRepository fs (some j) g).error)).disposition =
      some true ∧
    (applyTrackerOp p (terminalTrackerOp fullName d sz
        (executeJob maxRetries
          (constEnvOf (cloneRepository fs (some j) g).error)).disposition)).skipped
      = p.skipped + 1 ∧
    (applyTrackerOp p (terminalTrackerOp fullName d sz
        (executeJob maxRetries
          (constEnvOf (cloneRepository fs (some j) g).error)).disposition)).completed
      = p.completed ∧
    (applyTrackerOp p (terminalTrackerOp fullName d sz
        (executeJob maxRetries
          (constEnvOf (cloneRepository fs (some j) g).error)).disposition)).failed
      = p.failed := by
  have hclone : cloneRepository fs (some j) g =
      ⟨some (.repositoryExistsError (getDestinationPath j)), false⟩ := by
    simp [cloneRepository, hval, hgit, hskip]
  have hexec : (executeJob maxRetries
      (constEnvOf (cloneRepository fs (some j) g).error)) =
      ⟨.skipped (errMessage (.repositoryExistsError (getDestinationPath j))), 1, 0⟩ := by
    rw [hclone]
    simp [executeJob, execFrom, constEnvOf, isPermanentError]
  refine ⟨hclone, ?_, ?_, ?_, ?_, ?_⟩ <;>
    rw [hexec] <;>
    simp [emittedResult, terminalTrackerOp, applyTrackerOp, decInProgress] <;>
    split_ifs <;> simp

/-- C1 witness: a concrete valid job for `owner/repo` under `/tmp` with a
`.git` directory already present at `/tmp/repo`. -/
theorem C1_skip_on_exists_witness :
    cloneRepository
        ⟨fun s => s = "/tmp/repo" ∨ s = "/tmp/repo/.git", fun _ => false,
          fun _ => true, fun _ => true, fun _ => true⟩
        (some ⟨"job_1",
          some ⟨1, "repo", "https://github.com/owner/repo.git", "owner",
            false, 0, "main", "", "", 0⟩,
          "/tmp", newDefaultCloneOptions, .pending, none, 0, 3⟩)
        none =
      ⟨some (.repositoryExistsError "/tmp/repo"), false⟩ ∧
    (executeJob 3 (constEnvOf (some (.repositoryExistsError "/tmp/repo")))).disposition =
      .skipped "repository already exists at: /tmp/repo" := by
  have h := C1_skip_on_exists
    ⟨fun s => s = "/tmp/repo" ∨ s = "/tmp/repo/.git", fun _ => false,
      fun _ => true, fun _ => true, fun _ => true⟩
    ⟨"job_1",
      some ⟨1, "repo", "https://github.com/owner/repo.git", "owner",
        false, 0, "main", "", "", 0⟩,
      "/tmp", newDefaultCloneOptions, .pending, none, 0, 3⟩
    none 3 ⟨0, 0, 0, 0, 0, none⟩ "owner/repo" 0 0
    (by decide) (by decide) (by decide)
  refine ⟨h.1, ?_⟩
  have h2 := h.2.1
  rw [h.1] at h2
  exact h2

/-- C3 counterexample: a job whose repository pointer is nil makes
`CloneRepository` return a (wrapped) validation error, yet the pool — whose
permanent-error classification does not recognise the wrapper type —
retries it: with `maxRetries = 3` the clone is attempted 4 times with 3
backoff sleeps, contradicting "no further clone attempts and no backoff
sleep". -/
theorem C3_counterexample :
    (cloneRepository
        ⟨fun _ => false, fun _ => false, fun _ => true, fun _ => true, fun _ => true⟩
        (some ⟨"job_1", none, "/tmp", newDefaultCloneOptions, .pending, none, 0, 3⟩)
        none).error =
      some (.invalidCloneJob .nilRepository) ∧
    isPermanentError (.invalidCloneJob .nilRepository) = false ∧
    executeJob 3 (constEnvOf (some (.invalidCloneJob .nilRepository))) =
      ⟨.failed (some (.invalidCloneJob .nilRepository)), 4, 3⟩ := by
  refine ⟨by decide, by decide, by decide⟩

/-- C3 (amended): a validation error returned by `CloneRepository` is a
wrapped error that the permanent classifier does not recognise, so the
worker pool treats it like a transient fault: the job is retried with a
backoff sleep after each failed attempt — `maxRetries + 1` clone attempts
and `maxRetries` sleeps in all — before being marked failed. -/
theorem C3_validation_errors_retried (issue : ValidationIssue)
    (maxRetries : Nat) (env : Nat → AttemptEnv)
    (henv : ∀ a, env a = ⟨false, some (.invalidCloneJob issue), false⟩) :
    isPermanentError (.invalidCloneJob issue) = false ∧
    executeJob maxRetries env =
      ⟨.failed (some (.invalidCloneJob issue)), maxRetries + 1, maxRetries⟩ := by
  constructor
  · rfl
  · have h := execFrom_retryable_const maxRetries env (.invalidCloneJob issue)
      rfl (fun p => by simp) henv (maxRetries + 1) 0 none (by omega) (by omega)
    simpa [executeJob] using h

/-- C3 witness: the amended statement at `maxRetries = 3` for the
nil-repository validation error. -/
theorem C3_validation_errors_retried_witness :
    isPermanentError (.invalidCloneJob .nilRepository) = false ∧
    executeJob 3 (constEnvOf (some (.invalidCloneJob .nilRepository))) =
      ⟨.failed (some (.invalidCloneJob .nilRepository)), 4, 3⟩ :=
  C3_validation_errors_retried .nilRepository 3
    (constEnvOf (some (.invalidCloneJob .nilRepository))) (fun _ => rfl)

/-- C7 counterexample: when the cancellation signal is observed at the
loop head, `handleJobCancellation` runs — the job is marked failed and the
tracker's failed counter is incremented — but no `JobResult` is sent on
the results channel at all, contradicting the claim that a result with
`success = false` is emitted. -/
theorem C7_counterexample :
    executeJob 3 (fun _ => ⟨true, none, false⟩) = ⟨.cancelled, 0, 0⟩ ∧
    emittedResult (executeJob 3 (fun _ => ⟨true, none, false⟩)).disposition = none ∧
    emittedResult (executeJob 3 (fun _ => ⟨true, none, false⟩)).disposition ≠
      some false := by
  refine ⟨by decide, by decide, by decide⟩

/-- C7 (amended): when the pool's cancellation signal is observed at the
start of a retry iteration, the job is marked failed with error
`"job cancelled"`, the tracker transition is `FailJob` — incrementing the
failed counter and leaving completed and skipped unchanged — and no
`JobResult` is emitted for the job (`handleJobCancellation` performs no
send on the results channel). -/
theorem C7_cancellation (maxRetries fuel attempt : Nat)
    (env : Nat → AttemptEnv) (lastErr : Option GoErr) (p : Progress)
    (fullName : String) (d sz : Int)
    (hc : (env attempt).cancelledAtStart = true) :
    execFrom maxRetries env lastErr attempt (fuel + 1) = ⟨.cancelled, 0, 0⟩ ∧
    jobStatusAfter .cancelled = .failed ∧
    jobErrorAfter .cancelled = some "job cancelled" ∧
    terminalTrackerOp fullName d sz .cancelled = .failJob ∧
    (applyTrackerOp p .failJob).failed = p.failed + 1 ∧
    (applyTrackerOp p .failJob).completed = p.completed ∧
    (applyTrackerOp p .failJob).skipped = p.skipped ∧
    emittedResult .cancelled = none := by
  refine ⟨by simp [execFrom, hc], rfl, rfl, rfl, ?_, ?_, ?_, rfl⟩ <;>
    simp [applyTrackerOp, decInProgress] <;> split_ifs <;> simp

/-- C7 witness: cancellation observed at the first iteration with
`maxRetries = 3`. -/
theorem C7_cancellation_witness :
    execFrom 3 (fun _ => ⟨true, none, false⟩) none 0 4 = ⟨.cancelled, 0, 0⟩ ∧
    (applyTrackerOp ⟨3, 0, 0, 0, 1, none⟩ .failJob).failed = 1 :=
  ⟨(C7_cancellation 3 3 0 (fun _ => ⟨true, none, false⟩) none
      ⟨3, 0, 0, 0, 1, none⟩ "owner/repo" 0 0 rfl).1,
   by
    have h := (C7_cancellation 3 3 0 (fun _ => ⟨true, none, false⟩) none
      ⟨3, 0, 0, 0, 1, none⟩ "owner/repo" 0 0 rfl).2.2.2.2.1
    simpa using h⟩

/-- The limiter state reached from a fresh bucket of capacity 7 after
seven immediate `Allow` calls: the bucket is empty with no time elapsed. -/
def c4ExhaustedState : RateLimiterState :=
  (fun s => (allowModel s 0).2)^[7] (newTokenBucketRateLimiter 7 0)

/-- Seven immediate `Allow` calls leave the capacity-7 bucket empty with
no time elapsed. -/
theorem c4ExhaustedState_eq :
    c4ExhaustedState =
      { limit := 7, remaining := 7, resetTime := 3600, lastRefill := 0,
        tokens := 0, refillRate := 7 / 3600 } := by
  simp only [c4ExhaustedState, Function.iterate_succ_apply, Function.iterate_zero_apply]
  norm_num [allowModel, refillTokens, newTokenBucketRateLimiter]

/-- The truncated nanosecond count of the backoff the empty capacity-7
bucket computes. -/
theorem c4_floor : (⌊(3600000000000 : ℚ) / 7⌋ : Int) = 514285714285 := by
  rw [Int.floor_eq_iff]
  norm_num

/-- The backoff `Wait` programs from the empty capacity-7 bucket:
`⌊3600/7 · 10⁹⌋` nanoseconds, strictly less than the `3600/7` seconds a
full token needs. -/
theorem c4_waitDuration :
    waitDuration (refillTokens c4ExhaustedState 0) = 514285714285 / 1000000000 := by
  rw [c4ExhaustedState_eq]
  have h : ((1 : ℚ) - (refillTokens
      { limit := 7, remaining := 7, resetTime := 3600, lastRefill := 0,
        tokens := 0, refillRate := 7 / 3600 } 0).tokens) /
      (refillTokens
      { limit := 7, remaining := 7, resetTime := 3600, lastRefill := 0,
        tokens := 0, refillRate := 7 / 3600 } 0).refillRate * 1000000000 =
      3600000000000 / 7 := by
    norm_num [refillTokens]
  simp only [waitDuration, h, c4_floor]
  norm_num

/-- After sleeping exactly the programmed (truncated) backoff, the refill
leaves the bucket just below one token and `Wait` returns the non-
cancellation `"rate limit exceeded"` error. -/
theorem c4_outcome :
    (waitModel c4ExhaustedState 0 false ((514285714285 : ℚ) / 1000000000)).1 =
      .rateLimitExceeded := by
  rw [c4ExhaustedState_eq]
  norm_num [waitModel, refillTokens]

/-- C4 counterexample: `Wait` can return a non-cancellation error.  From
the empty bucket reached by seven immediate `Allow` calls on a capacity-7
limiter, `Wait` computes a backoff of `⌊3600/7·10⁹⌋` nanoseconds — the
`time.Duration` conversion truncates the fractional nanosecond — so when
the timer fires after exactly that programmed duration the refill adds
slightly less than one token and `Wait` returns the `"rate limit
exceeded"` error with no cancellation involved. -/
theorem C4_counterexample :
    c4ExhaustedState.tokens = 0 ∧
    waitDuration (refillTokens c4ExhaustedState 0) = 514285714285 / 1000000000 ∧
    (waitModel c4ExhaustedState 0 false ((514285714285 : ℚ) / 1000000000)).1 =
      .rateLimitExceeded := by
  refine ⟨?_, c4_waitDuration, c4_outcome⟩
  rw [c4ExhaustedState_eq]

/-- C4 (amended): `Wait` returns the cancellation error only when the
cancellation context fires first, and returns nil whenever a token is
available or the elapsed wait covers the untruncated refill need; but when
the single (nanosecond-truncated) backoff elapses with the refilled bucket
still below one token, `Wait` returns a non-cancellation `"rate limit
exceeded"` error instead of continuing to block. -/
theorem C4_wait_semantics (s : RateLimiterState) (now : ℚ) (c : Bool) (e : ℚ) :
    ((waitModel s now c e).1 = .ctxCancelled → c = true) ∧
    ((waitModel s now c e).1 = .rateLimitExceeded →
      c = false ∧ (refillTokens (refillTokens s now) (now + e)).tokens < 1) ∧
    (1 ≤ s.limit → s.refillRate = (s.limit : ℚ) / 3600 → c = false →
      (1 - (refillTokens s now).tokens) / s.refillRate ≤ e →
      (waitModel s now c e).1 = .ok) := by
  have hs1rate : (refillTokens s now).refillRate = s.refillRate := by
    simp only [refillTokens]; split_ifs <;> rfl
  have hs1last : (refillTokens s now).lastRefill = now := by
    simp only [refillTokens]; split_ifs <;> rfl
  have hs1limit : (refillTokens s now).limit = s.limit := by
    simp only [refillTokens]; split_ifs <;> rfl
  refine ⟨?_, ?_, ?_⟩
  · intro h
    simp only [waitModel] at h
    split_ifs at h
    all_goals simp_all
  · intro h
    simp only [waitModel] at h
    split_ifs at h with h1 h2 h3
    all_goals simp_all
  · intro hlim hrate hc hwait
    have hlimq : (1 : ℚ) ≤ (s.limit : ℚ) := by exact_mod_cast hlim
    have hratepos : 0 < s.refillRate := by
      rw [hrate]
      exact div_pos (by linarith) (by norm_num)
    by_cases h1 : 1 ≤ (refillTokens s now).tokens
    · simp [waitModel, h1]
    · have hs2 : 1 ≤ (refillTokens (refillTokens s now) (now + e)).tokens := by
        have hmul : 1 - (refillTokens s now).tokens ≤ e * s.refillRate := by
          have := (div_le_iff₀ hratepos).mp hwait
          linarith
        generalize hgen : refillTokens s now = s1 at h1 hs1rate hs1last hs1limit hmul
        simp only [refillTokens]
        split_ifs with hreset
        · simpa [hs1limit] using hlimq
        · have heq : now + e - s1.lastRefill = e := by rw [hs1last]; ring
          simp only [heq, hs1rate, hs1limit, le_min_iff]
          constructor
          · linarith
          · exact hlimq
      simp [waitModel, h1, hc, hs2]

/-- C4 witness for the amended statement: a fresh GitHub-quota limiter
(capacity 5000) at time 0 with no cancellation grants a token at once. -/
theorem C4_wait_semantics_witness :
    (waitModel (newTokenBucketRateLimiter 5000 0) 0 false 0).1 = .ok :=
  (C4_wait_semantics (newTokenBucketRateLimiter 5000 0) 0 false 0).2.2
    (by norm_num [newTokenBucketRateLimiter])
    (by norm_num [newTokenBucketRateLimiter]) rfl
    (by norm_num [refillTokens, newTokenBucketRateLimiter])

end GhCloner
